import Mathlib

/-!
# Verification of the Hilda symbol catalog and breakpoint/watchpoint subsystem

This development gives a shallow embedding of the core data structures and
operations of the Hilda debugger front-end (`hilda/symbol.py`,
`hilda/symbols.py`, `hilda/breakpoints.py`, `hilda/watchpoints.py`,
`hilda/hilda_client.py`) and proves or refutes the specified properties of
the symbol catalog, the breakpoint manager, the monitor callback and the
event-dispatch router.

Machine integers are modelled as `Int`/`Nat` with explicit reduction modulo
`2 ^ 64` where the Python source masks with `0xFFFFFFFFFFFFFFFF`.  Fallible
operations return an explicit `Option PyErr` outcome paired with the state
reached when the exception escapes, mirroring the fact that Python
exceptions do not roll back mutations already performed.
-/

/-- Python exceptions raised by the embedded code paths. -/
inductive PyErr where
  /-- `KeyError` raised by `__getitem__` on a missing breakpoint/watchpoint. -/
  | keyError (k : Nat)
  /-- `NotImplementedError` raised for a `(name, module)` breakpoint specifier. -/
  | notImplementedError
  /-- `SymbolAbsentError` raised when a symbol lookup finds nothing. -/
  | symbolAbsentError
  /-- `BrokenLocalSymbolsJarError` raised by `HildaClient.load` on a stale map. -/
  | brokenLocalSymbolsJarError
  /-- `TypeError` raised by an item assignment on an object that defines no
  `__setitem__` (the staged `SymbolsJar`). -/
  | typeError
  /-- An exception raised by a user-supplied breakpoint/watchpoint callback. -/
  | userError (code : Nat)
deriving Repr, DecidableEq

/-! ## `hilda/symbol.py`: `Symbol.create` and the arithmetic operators

`Symbol` subclasses `int`; `Symbol.create` executes
`value &= 0xFFFFFFFFFFFFFFFF` before building the instance, and every
arithmetic operator computes the plain Python integer and feeds it back
through `client.symbol` (= `Symbol.create`).  For an arbitrary-precision
integer `v`, Python's `v & (2 ^ 64 - 1)` is exactly `v mod 2 ^ 64`, which is
how the mask is embedded here. -/

/-- The address stored by `Symbol.create`: the input `value` after
`value &= 0xFFFFFFFFFFFFFFFF` (`symbol.py`, line 65). -/
def symbolCreateAddr (value : Int) : Nat :=
  (value % (2 ^ 64 : Int)).toNat

/-- `Symbol.__add__`: `self._client.symbol(int(self) + other)`. -/
def symbolAdd (a : Nat) (other : Int) : Nat :=
  symbolCreateAddr ((a : Int) + other)

/-- `Symbol.__sub__`: `self._client.symbol(int(self) - other)`. -/
def symbolSub (a : Nat) (other : Int) : Nat :=
  symbolCreateAddr ((a : Int) - other)

/-- `Symbol.__mul__`: `self._client.symbol(int(self) * other)`. -/
def symbolMul (a : Nat) (other : Int) : Nat :=
  symbolCreateAddr ((a : Int) * other)

/-- `Symbol.__and__`: `self._client.symbol(int(self) & other)`. -/
def symbolAnd (a : Nat) (other : Int) : Nat :=
  symbolCreateAddr (Int.land (a : Int) other)

/-- `Symbol.__or__`: `self._client.symbol(int(self) | other)`. -/
def symbolOr (a : Nat) (other : Int) : Nat :=
  symbolCreateAddr (Int.lor (a : Int) other)

/-- `Symbol.__xor__`: `self._client.symbol(int(self) ^ other)`. -/
def symbolXor (a : Nat) (other : Int) : Nat :=
  symbolCreateAddr (Int.xor (a : Int) other)

/-! ## `hilda/breakpoints.py` and `hilda/watchpoints.py`: manager state

The LLDB engine side is modelled by the list of live native breakpoint
(resp. watchpoint) IDs together with the next engine-assigned ID.  The
manager side is the `_breakpoints` (resp. `_watchpoints`) insertion-ordered
dictionary.  `HildaClient._bp_frame` is the "current frame" publication
shared by both dispatch routers; frames are identified by a `Nat` token.

User callbacks are identified by `Nat` tokens stored in the bookkeeping
entries; the dispatch router receives an environment mapping each token to
its semantics (a state transformer that may raise). -/

/-- The `where` specifier of a breakpoint (`WhereType` in the source):
a raw address, a bare symbol name, or a `(symbol, module)` pair. -/
inductive WhereSpec where
  | addr (a : Nat)
  | name (s : String)
  | pair (sym mod : String)
deriving Repr, DecidableEq

/-- Bookkeeping data of one `HildaBreakpoint`. -/
structure BpInfo where
  /-- `HildaBreakpoint._where` (absent for breakpoints tracked from outside Hilda). -/
  whereSpec : Option WhereSpec
  /-- Token of the user callback, if any. -/
  callback : Option Nat
  /-- The LLDB condition expression, if any. -/
  condition : Option String
  /-- `HildaBreakpoint.guarded`. -/
  guarded : Bool
  /-- `SBBreakpoint.IsEnabled()`. -/
  enabled : Bool
  /-- `HildaBreakpoint.description`. -/
  description : Option String
deriving Repr, DecidableEq

/-- Bookkeeping data of one `HildaWatchpoint`. -/
structure WpInfo where
  /-- The watched address, if created through the Hilda API. -/
  whereAddr : Option Nat
  /-- Token of the user callback, if any. -/
  callback : Option Nat
deriving Repr, DecidableEq

/-- The joint state of the LLDB target and the Hilda managers. -/
structure HildaState where
  /-- IDs of the live native breakpoints, in creation order (the LLDB target). -/
  nativeBps : List Nat
  /-- Next engine-assigned breakpoint ID. -/
  nextBpId : Nat
  /-- `BreakpointList._breakpoints`: insertion-ordered dictionary ID → info. -/
  books : List (Nat × BpInfo)
  /-- IDs of the live native watchpoints (the LLDB target). -/
  nativeWps : List Nat
  /-- `WatchpointList._watchpoints`: insertion-ordered dictionary ID → info. -/
  wpBooks : List (Nat × WpInfo)
  /-- `HildaClient._bp_frame`: the published "current frame", if any. -/
  bpFrame : Option Nat
deriving Repr, DecidableEq

/-- Insert into an insertion-ordered dictionary: replace the value if the key
is present, append otherwise (Python `dict` assignment). -/
def dictInsert {β : Type} (d : List (Nat × β)) (k : Nat) (v : β) : List (Nat × β) :=
  if (d.lookup k).isSome then
    d.map (fun kv => if kv.1 = k then (k, v) else kv)
  else
    d ++ [(k, v)]

/-- `BreakpointList.get` for an ID key: `FindBreakpointByID` succeeds exactly
when the ID is live in the target; an untracked live breakpoint is entered
into `_breakpoints` with no `where`, no callback, not guarded. -/
def untrackedBpInfo : BpInfo :=
  { whereSpec := none, callback := none, condition := none,
    guarded := false, enabled := true, description := none }

def bpGet (st : HildaState) (bpId : Nat) : Option BpInfo × HildaState :=
  if st.nativeBps.contains bpId then
    match st.books.lookup bpId with
    | some bp => (some bp, st)
    | none =>
        (some untrackedBpInfo, { st with books := st.books ++ [(bpId, untrackedBpInfo)] })
  else
    (none, st)

/-- `BreakpointList.remove`: look the breakpoint up (`self[...]`, raising
`KeyError` when absent); if it is guarded and `remove_guarded` is false, log
and return; otherwise `BreakpointDelete` the native breakpoint.  Note that
the source never deletes the `_breakpoints` bookkeeping entry. -/
def bpRemove (st : HildaState) (bpId : Nat) (removeGuarded : Bool) :
    HildaState × Option PyErr :=
  let r := bpGet st bpId
  match r.1 with
  | none => (r.2, some (.keyError bpId))
  | some bp =>
      if bp.guarded && !removeGuarded then
        (r.2, none)
      else
        ({ r.2 with nativeBps := r.2.nativeBps.filter (fun i => i ≠ bpId) }, none)

/-- The `where in (bp.where for bp in self)` membership scan of
`BreakpointList.add`: walk the native breakpoints in order, tracking each
through `get`, and stop at the first whose `where` equals the probe
(Python `in` short-circuits on a generator). -/
def bpScanWhere (st : HildaState) (ids : List Nat) (w : WhereSpec) :
    Bool × HildaState :=
  match ids with
  | [] => (false, st)
  | bpId :: rest =>
      let r := bpGet st bpId
      match r.1 with
      | some bp =>
          if bp.whereSpec = some w then (true, r.2) else bpScanWhere r.2 rest w
      | none => bpScanWhere r.2 rest w

/-- The `list(bp for bp in self if where == bp.where)` snapshot of
`BreakpointList.add`: collect, in order, the live breakpoints whose tracked
`where` equals the probe (again tracking untracked ones through `get`). -/
def bpCollectWhere (st : HildaState) (ids : List Nat) (w : WhereSpec) :
    List Nat × HildaState :=
  match ids with
  | [] => ([], st)
  | bpId :: rest =>
      let r := bpGet st bpId
      let rec2 := bpCollectWhere r.2 rest w
      match r.1 with
      | some bp =>
          if bp.whereSpec = some w then (bpId :: rec2.1, rec2.2) else (rec2.1, rec2.2)
      | none => (rec2.1, rec2.2)

/-- The `for bp in list(...): del self[bp]` conflict-removal loop of
`BreakpointList.add`: remove each snapshot entry in order; an exception
raised by a removal (impossible for a snapshot of live breakpoints, but
modelled nonetheless) aborts the loop and propagates. -/
def bpRemoveLoop (st : HildaState) (targets : List Nat) : HildaState × Option PyErr :=
  match targets with
  | [] => (st, none)
  | t :: rest =>
      let r := bpRemove st t false
      match r.2 with
      | some e => (r.1, some e)
      | none => bpRemoveLoop r.1 rest

/-- `BreakpointList.add`.  `promptAnswer` stands for the return value of the
interactive `inquirer3.confirm` prompt, which Python only consults when
`override` is false.  Returns the state, the new breakpoint's ID on success
and the escaping exception otherwise (`NotImplementedError` for a
`(name, module)` specifier, raised after the conflict-removal loop ran). -/
def bpAdd (st : HildaState) (w : WhereSpec) (cb : Option Nat)
    (cond : Option String) (guarded override promptAnswer : Bool)
    (descr : Option String) : HildaState × Option Nat × Option PyErr :=
  let scan := bpScanWhere st st.nativeBps w
  let rem :=
    if scan.1 && (override || promptAnswer) then
      let coll := bpCollectWhere scan.2 scan.2.nativeBps w
      bpRemoveLoop coll.2 coll.1
    else (scan.2, none)
  match rem.2 with
  | some e => (rem.1, none, some e)
  | none =>
      match w with
      | .pair _ _ => (rem.1, none, some .notImplementedError)
      | _ =>
          let newId := rem.1.nextBpId
          let info : BpInfo :=
            { whereSpec := some w, callback := cb, condition := cond,
              guarded := guarded, enabled := true, description := descr }
          ({ rem.1 with
              nativeBps := rem.1.nativeBps ++ [newId],
              nextBpId := rem.1.nextBpId + 1,
              books := dictInsert rem.1.books newId info },
            some newId, none)

/-- Whether the tracked bookkeeping entry of `bpId` records `where = w`. -/
def trackedWhereEq (st : HildaState) (bpId : Nat) (w : WhereSpec) : Bool :=
  match st.books.lookup bpId with
  | some bp => bp.whereSpec = some w
  | none => false

/-- The live breakpoints whose tracked `where` equals `w` in state `st`. -/
def bpsAt (st : HildaState) (w : WhereSpec) : List Nat :=
  st.nativeBps.filter (fun bpId => trackedWhereEq st bpId w)

/-! ## The dispatch routers

`BreakpointList._dispatch_breakpoint_callback` and
`WatchpointList._dispatch_watchpoint_callback` are the single native entry
points LLDB invokes on hits.  A user callback is a state transformer that
may raise; the semantics of the stored callback tokens is supplied as an
environment. -/

/-- Semantics of user callbacks: a callback mutates the state and either
returns normally (`none`) or raises (`some e`). -/
def CallbackEnv : Type :=
  Nat → HildaState → HildaState × Option PyErr

/-- `BreakpointList._dispatch_breakpoint_callback`:
`self._hilda._bp_frame = frame`; then, under `try`, look the breakpoint up
by ID and invoke its callback (if any); the `finally` block resets
`_bp_frame` to `None` on every path, and an exception (the `KeyError` of
the lookup or one escaping the callback) propagates to the caller. -/
def dispatchBreakpointCallback (env : CallbackEnv) (frame : Nat) (bpId : Nat)
    (st : HildaState) : HildaState × Option PyErr :=
  let stPub := { st with bpFrame := some frame }
  let r := bpGet stPub bpId
  match r.1 with
  | none => ({ r.2 with bpFrame := none }, some (.keyError bpId))
  | some bp =>
      match bp.callback with
      | none => ({ r.2 with bpFrame := none }, none)
      | some tok =>
          let c := env tok r.2
          ({ c.1 with bpFrame := none }, c.2)

/-- `WatchpointList.get` for an ID key (tracks an untracked live watchpoint
into `_watchpoints`, like the breakpoint version). -/
def untrackedWpInfo : WpInfo := { whereAddr := none, callback := none }

def wpGet (st : HildaState) (wpId : Nat) : Option WpInfo × HildaState :=
  if st.nativeWps.contains wpId then
    match st.wpBooks.lookup wpId with
    | some wp => (some wp, st)
    | none =>
        (some untrackedWpInfo, { st with wpBooks := st.wpBooks ++ [(wpId, untrackedWpInfo)] })
  else
    (none, st)

/-- `WatchpointList._dispatch_watchpoint_callback`: identical routing
structure to the breakpoint dispatcher, over `_watchpoints`. -/

def dispatchWatchpointCallback (env : CallbackEnv) (frame : Nat) (wpId : Nat)
    (st : HildaState) : HildaState × Option PyErr :=
  let stPub := { st with bpFrame := some frame }
  let r := wpGet stPub wpId
  match r.1 with
  | none => ({ r.2 with bpFrame := none }, some (.keyError wpId))
  | some wp =>
      match wp.callback with
      | none => ({ r.2 with bpFrame := none }, none)
      | some tok =>
          let c := env tok r.2
          ({ c.1 with bpFrame := none }, c.2)

/-! ## `BreakpointList.add_monitor`: the synthesized monitor callback

The callback closed over by `add_monitor` (and, with the same statement
order, `HildaClient.monitor`) is embedded as a trace-producing interpreter
over an abstract debuggee whose only relevant notion is the current frame
depth relative to the hit frame: depth 0 is the frame the breakpoint hit,
depth 1 its caller, and so on.  `hilda.finish()` runs
`thread.StepOutOfFrame(self.frame)` and clears `_bp_frame`, so each call
steps out of whatever frame is current at that moment: the first call
unwinds the hit frame to its caller, a second call unwinds the caller as
well. -/

/-- The value formats of the monitor options (`'x'`, `'s'`, `'cf'`, `'po'`,
`'std::string'` or a user-supplied function). -/
inductive MonitorFmt where
  | hexFmt | strFmt | cfFmt | poFmt | stdStringFmt
  | customFmt (tok : Nat)
deriving Repr, DecidableEq

/-- The options consumed when synthesizing a monitor callback. -/
structure MonitorOptions where
  regs : List (String × MonitorFmt)
  expr : List (String × MonitorFmt)
  retval : Option MonitorFmt
  stop : Bool
  bt : Bool
  cmd : List String
  forceReturn : Option Int
  nameOpt : Option String
deriving Repr, DecidableEq

/-- Observable events of one run of the synthesized monitor callback, each
annotated with the frame depth (relative to the hit frame) at which it
happens. -/
inductive MonitorEvent where
  /-- `hilda.finish()`: step out of the frame current at this depth. -/
  | finishStep (depthBefore : Nat)
  /-- A register read performed for the `regs` option. -/
  | regRead (r : String) (depth : Nat)
  /-- An expression evaluation performed for the `expr` option. -/
  | exprRead (e : String) (depth : Nat)
  /-- `hilda.force_return(value)` (which itself calls `finish()` first). -/
  | forcedReturn (value : Int)
  /-- The backtrace print of the `bt` option. -/
  | btPrint (depth : Nat)
  /-- The `$arg1` read capturing the return value for the `retval` option. -/
  | retvalRead (depth : Nat)
  /-- One LLDB command of the `cmd` option. -/
  | runCmd (c : String)
  /-- `stop=True`: the process remains stopped. -/
  | stopFocus
  /-- `stop=False`: `hilda.cont()`. -/
  | contResume
deriving Repr, DecidableEq

/-- One run of the callback synthesized by `BreakpointList.add_monitor`, as
the list of its observable events in source order:
register reads, expression reads, the optional forced return, then
`if bt: hilda.finish(); <print backtrace>`, then
`if retval is not None: hilda.finish(); <read $arg1>`, the commands, and
finally stop or continue.  The depth counter starts at 0 (the hit frame)
and each `finish` increments it. -/
def monitorCallbackTrace (opts : MonitorOptions) : List MonitorEvent :=
  let d0 : Nat := 0
  let regEvents := opts.regs.map (fun rf => MonitorEvent.regRead rf.1 d0)
  let exprEvents := opts.expr.map (fun ef => MonitorEvent.exprRead ef.1 d0)
  let (frEvents, d1) :=
    match opts.forceReturn with
    | some v => ([MonitorEvent.finishStep d0, MonitorEvent.forcedReturn v], d0 + 1)
    | none => ([], d0)
  let (btEvents, d2) :=
    if opts.bt then
      ([MonitorEvent.finishStep d1, MonitorEvent.btPrint (d1 + 1)], d1 + 1)
    else ([], d1)
  let (rvEvents, _d3) :=
    match opts.retval with
    | some _ => ([MonitorEvent.finishStep d2, MonitorEvent.retvalRead (d2 + 1)], d2 + 1)
    | none => ([], d2)
  let cmdEvents := opts.cmd.map MonitorEvent.runCmd
  let tailEvents := if opts.stop then [MonitorEvent.stopFocus] else [MonitorEvent.contResume]
  regEvents ++ exprEvents ++ frEvents ++ btEvents ++ rvEvents ++ cmdEvents ++ tailEvents

/-- Number of frame unwinds (`hilda.finish()` calls) in a monitor trace. -/
def monitorUnwindCount (tr : List MonitorEvent) : Nat :=
  tr.countP (fun e => match e with | MonitorEvent.finishStep _ => true | _ => false)

/-- The depths at which the return value is read in a monitor trace. -/
def monitorRetvalDepths (tr : List MonitorEvent) : List Nat :=
  tr.filterMap (fun e => match e with | MonitorEvent.retvalRead d => some d | _ => none)

/-! ## `hilda/symbols.py`: the symbol catalog (`SymbolList`)

The LLDB engine is modelled by `SymTarget`: the ordered module list (with
per-module UUID, file basename and raw symbol table), the `FindSymbols`
primitive and the "symbol containing a load address" primitive used by
`ResolveSymbolContextForAddress`.  The catalog state mirrors the global
`SymbolList`: the `_modules` populated-UUID set, the `_symbols` dictionary
keyed by the `(name, address)` identity, and the `_symbols_by_name` index.
Created `Symbol` entities carry a creation stamp: two entities are the very
same Python object exactly when their stamps agree, which makes "served
from cache, not a duplicate" expressible.  A ghost `scans` counter counts
engine symbol-table scans (one per module walked). -/

/-- One raw LLDB symbol: name, start load address, and type code. -/
structure LldbSym where
  sname : String
  saddr : Nat
  stype : Nat
deriving Repr, DecidableEq

/-- `lldb.eSymbolTypeCode`. -/
def eSymbolTypeCode : Nat := 2

/-- `lldb.eSymbolTypeData`. -/
def eSymbolTypeData : Nat := 4

/-- `lldb.eSymbolTypeRuntime`. -/
def eSymbolTypeRuntime : Nat := 6

/-- `lldb.eSymbolTypeObjCMetaClass`. -/
def eSymbolTypeObjCMetaClass : Nat := 29

/-- An invalid/unknown LLDB symbol type. -/
def eSymbolTypeInvalid : Nat := 0

/-- The `LLDB_INVALID_ADDRESS` sentinel (`0xffffffffffffffff`). -/
def lldbInvalidAddress : Nat := 0xffffffffffffffff

/-- One loaded module of the target. -/
structure LldbModule where
  uuid : String
  basename : String
  syms : List LldbSym
deriving Repr, DecidableEq

/-- The engine side consumed by the catalog: the ordered module list plus the
two resolution primitives. -/
structure SymTarget where
  /-- `target.modules`, in load order. -/
  modules : List LldbModule
  /-- `target.FindSymbols(name)`. -/
  findSyms : String → List LldbSym
  /-- The symbol containing a given load address
  (`ResolveSymbolContextForAddress(...).symbol`, also `SBAddress.symbol`). -/
  symbolContaining : Nat → Option LldbSym

/-- One catalog `Symbol` entity (`Symbol.create`d).  `stamp` is the creation
counter: equal stamps mean the identical Python object. -/
structure SymbolEnt where
  name : Option String
  addr : Nat
  ty : Nat
  stamp : Nat
deriving Repr, DecidableEq

/-- `HildaSymbolId`: the `(name, address)` identity of a regular symbol. -/
def SymId : Type := Option String × Nat

deriving instance DecidableEq, Repr for SymId

/-- Association-list lookup for dictionary-modelled state. -/
def assocLookup {α β : Type} [DecidableEq α] (d : List (α × β)) (k : α) : Option β :=
  match d with
  | [] => none
  | (k', v) :: rest => if k' = k then some v else assocLookup rest k

/-- Association-list insert with Python `dict` semantics: overwrite in place
if the key exists, append otherwise. -/
def assocInsert {α β : Type} [DecidableEq α] (d : List (α × β)) (k : α) (v : β) :
    List (α × β) :=
  match d with
  | [] => [(k, v)]
  | (k', v') :: rest =>
      if k' = k then (k, v) :: rest else (k', v') :: assocInsert rest k v

/-- The global `SymbolList` state. -/
structure SymListState where
  /-- `_modules`: UUIDs of already-populated modules. -/
  modulesPopulated : List String
  /-- `_symbols`: insertion-ordered dictionary identity → entity. -/
  symbols : List (SymId × SymbolEnt)
  /-- `_symbols_by_name`: index from plain identifier names to identities. -/
  symbolsByName : List (String × List SymId)
  /-- Creation counter used to stamp `Symbol.create`d entities. -/
  nextStamp : Nat
  /-- Ghost counter of engine symbol-table scans (one per module walked). -/
  scans : Nat
deriving Repr, DecidableEq

/-- `re.match(r'^[a-zA-Z0-9_]+$', name)` of `SymbolList._add`/`_remove`. -/
def isIdentName (l : List Char) : Bool :=
  !l.isEmpty && l.all (fun c => c.isAlphanum || c = '_')

/-- `SymbolList._add`: store the entity under its identity and, when the name
is a plain identifier, record the identity in the by-name index. -/
def symListAddEntry (st : SymListState) (sid : SymId) (ent : SymbolEnt) :
    SymListState :=
  let st1 := { st with symbols := assocInsert st.symbols sid ent }
  match sid.1 with
  | some n =>
      if isIdentName n.toList then
        match assocLookup st1.symbolsByName n with
        | some ids =>
            { st1 with symbolsByName := assocInsert st1.symbolsByName n (ids ++ [sid]) }
        | none => { st1 with symbolsByName := st1.symbolsByName ++ [(n, [sid])] }
      else st1
  | none => st1

/-- The validity filters of the `SBSymbol` branch of
`SymbolList._get_lldb_symbol`: reject `<redacted>` names, the invalid load
address, and types outside {code, runtime, data, objc-metaclass}; otherwise
return the `(name, address, type)` triple. -/
def validateLldbSym (s : LldbSym) : Option (String × Nat × Nat) :=
  if s.sname = "<redacted>" then none
  else if s.saddr = lldbInvalidAddress then none
  else if s.stype = eSymbolTypeCode ∨ s.stype = eSymbolTypeRuntime ∨
          s.stype = eSymbolTypeData ∨ s.stype = eSymbolTypeObjCMetaClass then
    some (s.sname, s.saddr, s.stype)
  else none

/-- `SymbolList._get_lldb_symbol_from_name`: `FindSymbols`, keep only the
contexts whose start load address equals the requested address (when one is
requested), convert each through the `SBSymbol` validity filters, and pick
the first survivor. -/
def getLldbSymbolFromName (t : SymTarget) (n : String) (addr : Option Nat) :
    Option (String × Nat × Nat) :=
  let ctxs := t.findSyms n
  let ctxs :=
    match addr with
    | some a => ctxs.filter (fun s : LldbSym => s.saddr = a)
    | none => ctxs
  (ctxs.filterMap validateLldbSym).head?

/-- The `int` branch of `SymbolList._get_lldb_symbol`: mask the address to 64
bits, resolve the containing symbol, reject when the symbol's start address
differs from the requested address, then apply the validity filters. -/
def getLldbSymbolByAddr (t : SymTarget) (value : Int) : Option (String × Nat × Nat) :=
  let address := symbolCreateAddr value
  match t.symbolContaining address with
  | none => none
  | some s => if address ≠ s.saddr then none else validateLldbSym s

/-- A lookup key of `SymbolList.get` (the `Union` argument of
`_get_lldb_symbol`). -/
inductive SymQuery where
  /-- An address (`int`). -/
  | byAddr (value : Int)
  /-- A bare name (`str`). -/
  | byName (n : String)
  /-- A `(name, address)` identity pair (`HildaSymbolId`). -/
  | byId (n : Option String) (a : Nat)
  /-- A raw `lldb.SBSymbol`. -/
  | bySym (s : LldbSym)
deriving Repr, DecidableEq

/-- `SymbolList._get_lldb_symbol` over all key kinds. -/
def getLldbSymbol (t : SymTarget) (q : SymQuery) : Option (String × Nat × Nat) :=
  match q with
  | .byAddr v => getLldbSymbolByAddr t v
  | .byName n => getLldbSymbolFromName t n none
  | .byId none a => getLldbSymbolByAddr t (a : Int)
  | .byId (some n) a => getLldbSymbolFromName t n (some a)
  | .bySym s => validateLldbSym s

/-- `SymbolList.get` on the global list: resolve through `_get_lldb_symbol`;
on success, if the `(name, address)` identity is not yet cached, create a
fresh entity (`Symbol.create`, consuming a stamp), `_add` it and return it;
otherwise serve the cached entity. -/
def symGet (t : SymTarget) (st : SymListState) (q : SymQuery) :
    Option SymbolEnt × SymListState :=
  match getLldbSymbol t q with
  | none => (none, st)
  | some (n, a, ty) =>
      let sid : SymId := (some n, a)
      match assocLookup st.symbols sid with
      | none =>
          let ent : SymbolEnt := { name := some n, addr := a, ty := ty, stamp := st.nextStamp }
          let st1 := symListAddEntry { st with nextStamp := st.nextStamp + 1 } sid ent
          (some ent, st1)
      | some ent => (some ent, st)

/-- One iteration of the `_populate_cache` module loop: walk the module's
raw symbol table once (one engine scan), pushing every raw symbol through
`get`, then add the module's UUID to `_modules` (set insertion). -/
def populateModule (t : SymTarget) (acc : SymListState) (m : LldbModule) :
    SymListState :=
  let acc1 := m.syms.foldl
    (fun (a : SymListState) (s : LldbSym) => (symGet t a (.bySym s)).2) acc
  { acc1 with
      modulesPopulated :=
        if acc1.modulesPopulated.contains m.uuid then acc1.modulesPopulated
        else acc1.modulesPopulated ++ [m.uuid],
      scans := acc1.scans + 1 }

/-- `SymbolList._populate_cache` on the global list: the not-yet-populated
modules are computed up front (or, with a UUID filter, all modules matching
the filter regardless of population state); each selected module is scanned
through `populateModule`. -/
def populateCache (t : SymTarget) (st : SymListState) (uuidFilter : Option String) :
    SymListState :=
  let notCached :=
    match uuidFilter with
    | none => t.modules.filter (fun m : LldbModule => !st.modulesPopulated.contains m.uuid)
    | some u => t.modules.filter (fun m : LldbModule => m.uuid = u)
  notCached.foldl (populateModule t) st

/-- `SymbolList.__iter__` on the global list: populate the cache, then yield
the values of `_symbols` in insertion order. -/
def symListIter (t : SymTarget) (st : SymListState) : List SymbolEnt × SymListState :=
  let st1 := populateCache t st none
  (st1.symbols.map Prod.snd, st1)

/-! ## `SymbolList.__getattr__` and `force_refresh`

`force_refresh` opens with `self.log_debug('Force symbols')`.  `SymbolList`
defines no attribute called `log_debug` (the logging helpers live on the
client, accessed as `self._hilda.log_debug` elsewhere in the same file), so
Python routes the access through `SymbolList.__getattr__`, which treats the
name as a symbol lookup: it first tries the `x(0x)?<6..16 hex digits>`
address-literal pattern, then falls back to `self.get(attribute_name)` and
raises `SymbolAbsentError` when that returns `None`. -/

/-- `[0-9a-fA-F]` as a character test. -/
def isHexDigitChar (c : Char) : Bool :=
  c.isDigit || ('a' ≤ c && c ≤ 'f') || ('A' ≤ c && c ≤ 'F')

/-- Numeric value of one hex digit. -/
def hexDigitVal (c : Char) : Nat :=
  if c.isDigit then c.toNat - 48
  else if 'a' ≤ c && c ≤ 'f' then c.toNat - 87
  else c.toNat - 55

/-- `int(digits, 16)` over a digit list. -/
def hexListVal (l : List Char) : Nat :=
  l.foldl (fun a c => a * 16 + hexDigitVal c) 0

/-- Match a candidate digit group of the `__getattr__` address pattern:
6 to 16 hex digits. -/
def matchHexCore (l : List Char) : Option Nat :=
  if l.all isHexDigitChar && 6 ≤ l.length && l.length ≤ 16 then some (hexListVal l)
  else none

/-- `re.fullmatch(r'x(?:0x)?([0-9a-fA-F]{6,16})', attribute_name)` with the
group converted through `int(_, 16)`; the optional `0x` is tried first and
backtracked when the remainder is not an acceptable digit group. -/
def parseHexAttr (s : String) : Option Nat :=
  match s.toList with
  | 'x' :: '0' :: 'x' :: ds =>
      (matchHexCore ds).orElse (fun _ => matchHexCore ('0' :: 'x' :: ds))
  | 'x' :: rest => matchHexCore rest
  | _ => none

/-- The `self.add(address)` path taken by `__getattr__` for an
address-literal attribute, restricted to its actual call shape
(`value : int`, no name/type/size hints): look the address up in the global
catalog; if a regular symbol is found, re-add and return it; otherwise
create an anonymous `Symbol` (fresh stamp, not cached), whose type is read
from the containing symbol of the resolved address. -/
def symListAddByAddr (t : SymTarget) (st : SymListState) (a : Nat) :
    SymbolEnt × SymListState :=
  let r := symGet t st (.byAddr (a : Int))
  match r.1 with
  | some ent => (ent, symListAddEntry r.2 (ent.name, ent.addr) ent)
  | none =>
      let ty := ((t.symbolContaining (symbolCreateAddr (a : Int))).map
        (fun s : LldbSym => s.stype)).getD eSymbolTypeInvalid
      let ent : SymbolEnt :=
        { name := none, addr := symbolCreateAddr (a : Int), ty := ty, stamp := r.2.nextStamp }
      (ent, { r.2 with nextStamp := r.2.nextStamp + 1 })

/-- `SymbolList.__getattr__`: address-literal attributes go through
`add`; anything else is a name lookup through `get`, raising
`SymbolAbsentError` when absent. -/
def symListGetattr (t : SymTarget) (st : SymListState) (attr : String) :
    (Option SymbolEnt) × SymListState × Option PyErr :=
  match parseHexAttr attr with
  | some a =>
      let (ent, st1) := symListAddByAddr t st a
      (some ent, st1, none)
  | none =>
      let r := symGet t st (.byName attr)
      match r.1 with
      | none => (none, r.2, some .symbolAbsentError)
      | some ent => (some ent, r.2, none)

/-- Bool-valued substring test on character lists
(Python `needle in haystack` for strings). -/
def charListInfix (needle haystack : List Char) : Bool :=
  match haystack with
  | [] => needle.isEmpty
  | _ :: t => needle.isPrefixOf haystack || charListInfix needle t

/-- The module scan loop of `force_refresh`: for each module (with its load
index), skip it unless the basename contains the filename filter and the
index lies in the requested range; walk the surviving modules' raw symbol
tables unconditionally, pushing every raw symbol through `get` (one engine
scan per walked module).  Population state is neither consulted nor
updated. -/
def forceRefreshScan (t : SymTarget) (st : SymListState)
    (mrange : Option (Nat × Nat)) (mfilter : String) : SymListState :=
  ((t.modules.zip (List.range t.modules.length)).foldl
    (fun (acc : SymListState) (mi : LldbModule × Nat) =>
      let (m, i) := mi
      if !charListInfix mfilter.toList m.basename.toList then acc
      else
        match mrange with
        | some (lo, hi) =>
            if i < lo || hi < i then acc
            else
              let acc1 := m.syms.foldl
                (fun (a : SymListState) (s : LldbSym) => (symGet t a (.bySym s)).2) acc
              { acc1 with scans := acc1.scans + 1 }
        | none =>
            let acc1 := m.syms.foldl
              (fun (a : SymListState) (s : LldbSym) => (symGet t a (.bySym s)).2) acc
            { acc1 with scans := acc1.scans + 1 })
    st)

/-- `SymbolList.force_refresh` on the global list, as written in the source:
the first statement is `self.log_debug('Force symbols')`, resolved through
`__getattr__` (see above).  When that raises `SymbolAbsentError`, the
exception escapes before any module is scanned; when the attached process
happens to export a symbol called `log_debug`, the returned `Symbol` is
called and the scan proceeds. -/
def forceRefresh (t : SymTarget) (st : SymListState)
    (mrange : Option (Nat × Nat)) (mfilter : String) : SymListState × Option PyErr :=
  match symListGetattr t st "log_debug" with
  | (_, st1, some e) => (st1, some e)
  | (_, st1, none) => (forceRefreshScan t st1 mrange mfilter, none)

/-! ## `HildaClient.load`: the persisted symbol map

`load` iterates the saved entries, executing
`self.symbols[k] = self.symbol(v.address)` for each, then performs the
staleness sanity check `if self.symbols.rand() == 0 and
self.symbols.rand() == 0: raise BrokenLocalSymbolsJarError()` (the second
probe is only evaluated when the first yields the "no output" sentinel 0),
and finally runs `rebind_symbols(image_range=[0, 0])`,
`init_dynamic_environment()` and sets `self._symbols_loaded`.

`self.symbols` is a `SymbolsJar` (`hilda/symbols_jar.py`), which defines
`__getitem__`, `__getattr__`, `get`, `add` — but **no** `__setitem__` (and
does not subclass `dict`), so the item assignment in the loop raises
`TypeError` on the first entry (after the right-hand `Symbol.create` has
already run, a pure step).  The `rand` probes hit the same wall on an
uncached jar: `SymbolsJar.get` pushes every `FindSymbols('rand')`
candidate through `HildaClient.add_lldb_symbol`, whose validity failures
raise the suppressed `AddingLldbSymbolError` but whose
`self.symbols[name] = value` raises `TypeError` for a valid candidate;
with no usable candidate the attribute access raises `SymbolAbsentError`.
Likewise `rebind_symbols` walks the first image's symbols through
`add_lldb_symbol` under the same suppression, so its first valid symbol
also raises `TypeError`.  Probe results for the cached-`rand` case are
supplied as oracle values; `init_dynamic_environment` is modelled as the
flag it sets (it does not touch the jar). -/

/-- The client state touched by `load`. -/
structure LoadState where
  /-- `SymbolsJar._symbols`: name → symbol address. -/
  jar : List (String × Nat)
  /-- `rebind_symbols(image_range=[0, 0])` has completed. -/
  rebindDone : Bool
  /-- `init_dynamic_environment()` has run. -/
  dynamicInit : Bool
  /-- `self._symbols_loaded`. -/
  symbolsLoaded : Bool
deriving Repr, DecidableEq

/-- The validity tests of `HildaClient.add_lldb_symbol` (a real load
address, a name other than `<redacted>`, a type among
code/runtime/data/objc-metaclass); a failing candidate raises
`AddingLldbSymbolError`, which the callers below suppress. -/
def addLldbSymbolOk (s : LldbSym) : Bool :=
  !(s.saddr = lldbInvalidAddress) && !(s.sname = "<redacted>") &&
  (s.stype = eSymbolTypeCode || s.stype = eSymbolTypeRuntime ||
   s.stype = eSymbolTypeData || s.stype = eSymbolTypeObjCMetaClass)

/-- One staleness probe: `self.symbols.rand()` on the staged jar.  A cached
`rand` is called in the target and yields the probe oracle; otherwise the
first valid `FindSymbols('rand')` candidate reaches `add_lldb_symbol`'s
`self.symbols[name] = value` item assignment and raises `TypeError`
(invalid candidates raise the suppressed `AddingLldbSymbolError` and the
loop continues); with no valid candidate `get` returns `None` and
`__getattr__` raises `SymbolAbsentError`. -/
def symbolsJarCallRand (jar : List (String × Nat)) (randSyms : List LldbSym)
    (probe : Nat) : Except PyErr Nat :=
  match assocLookup jar "rand" with
  | some _ => .ok probe
  | none =>
      match randSyms.find? addLldbSymbolOk with
      | some _ => .error .typeError
      | none => .error .symbolAbsentError

/-- `HildaClient.rebind_symbols(image_range=[0, 0])` as staged: clear
`_symbols_loaded`, then walk the first image's symbols; invalid ones raise
the suppressed `AddingLldbSymbolError`, but the first valid one reaches
`add_lldb_symbol`'s item assignment and raises `TypeError`.  Only an image
without a single valid symbol completes and re-sets `_symbols_loaded`. -/
def rebindFirstImage (image0Syms : List LldbSym) (st : LoadState) :
    LoadState × Option PyErr :=
  let st0 := { st with symbolsLoaded := false }
  match image0Syms.find? addLldbSymbolOk with
  | some _ => (st0, some .typeError)
  | none => ({ st0 with symbolsLoaded := true, rebindDone := true }, none)

/-- The tail of a `load` that passed the staleness check: rebind the first
image, then initialise the dynamic environment and set
`self._symbols_loaded`. -/
def loadFinish (image0Syms : List LldbSym) (st : LoadState) :
    LoadState × Option PyErr :=
  match rebindFirstImage image0Syms st with
  | (st1, some e) => (st1, some e)
  | (st1, none) => ({ st1 with dynamicInit := true, symbolsLoaded := true }, none)

/-- `HildaClient.load` as staged.  `entries` are the saved map's items in
iteration order, `randSyms` is `target.FindSymbols('rand')`,
`image0Syms` the first image's symbol table, and `probe1`, `probe2` the
oracle results of the two staleness probes.  A non-empty map aborts with
`TypeError` at its first entry's `self.symbols[k] = ...` item assignment,
before the staleness check; only an empty map reaches the probes. -/
def clientLoad (entries : List (String × Int)) (randSyms image0Syms : List LldbSym)
    (probe1 probe2 : Nat) (st : LoadState) : LoadState × Option PyErr :=
  match entries with
  | _ :: _ => (st, some .typeError)
  | [] =>
      match symbolsJarCallRand st.jar randSyms probe1 with
      | .error e => (st, some e)
      | .ok p1 =>
          if p1 = 0 then
            match symbolsJarCallRand st.jar randSyms probe2 with
            | .error e => (st, some e)
            | .ok p2 =>
                if p2 = 0 then (st, some .brokenLocalSymbolsJarError)
                else loadFinish image0Syms st
          else loadFinish image0Syms st

/-- A two-breakpoint state used to witness the dispatch-router theorem:
breakpoint 1 carries callback token 7. -/
def dispatchWitnessState : HildaState :=
  { nativeBps := [1], nextBpId := 2,
    books := [(1, { whereSpec := some (.addr 4096), callback := some 7,
                    condition := none, guarded := false, enabled := true,
                    description := none })],
    nativeWps := [3],
    wpBooks := [(3, { whereAddr := some 8192, callback := some 7 })],
    bpFrame := none }

/-- A callback environment whose callback mutates nothing and raises
`userError 42`. -/
def dispatchWitnessEnv : CallbackEnv :=
  fun _ st => (st, some (.userError 42))

/-- A state with one guarded breakpoint at address `4096`, used to witness
the guarded-removal theorem. -/
def guardedWitnessState : HildaState :=
  { nativeBps := [1], nextBpId := 2,
    books := [(1, { whereSpec := some (.addr 4096), callback := none,
                    condition := none, guarded := true, enabled := true,
                    description := none })],
    nativeWps := [], wpBooks := [], bpFrame := none }

/-- A state with one live, tracked, non-guarded breakpoint (ID 1), used to
evaluate `BreakpointList.remove`. -/
def removeLeakState : HildaState :=
  { nativeBps := [1], nextBpId := 2,
    books := [(1, { whereSpec := some (.addr 4096), callback := some 1,
                    condition := none, guarded := false, enabled := true,
                    description := none })],
    nativeWps := [], wpBooks := [], bpFrame := none }

/-- The monitor options of the double-unwind scenario: `bt=True` together
with `retval='x'` (no registers, no expressions, no forced return, no
commands, auto-continue). -/
def monitorBtRetvalOpts : MonitorOptions :=
  { regs := [], expr := [], retval := some .hexFmt, stop := false, bt := true,
    cmd := [], forceReturn := none, nameOpt := none }

/-- A client state with an empty (never successfully written) jar, used to
evaluate the staged `load`. -/
def loadStagedEmpty : LoadState :=
  { jar := [], rebindDone := false, dynamicInit := false, symbolsLoaded := false }

/-- A plain `rand@8192` code symbol, resolvable by `FindSymbols('rand')`. -/
def randProbeSym : LldbSym := { sname := "rand", saddr := 8192, stype := eSymbolTypeCode }

/-- The raw symbol `isdigit@4096` used by the identity-stability witness. -/
def isdigitSym : LldbSym := { sname := "isdigit", saddr := 4096, stype := eSymbolTypeCode }

/-- A one-module target exporting `isdigit@4096`, used by the
identity-stability witness. -/
def identityWitnessTarget : SymTarget :=
  { modules := [{ uuid := "UUID-A", basename := "libsystem_c.dylib", syms := [isdigitSym] }],
    findSyms := fun n => if n = "isdigit" then [isdigitSym] else [],
    symbolContaining := fun a => if a = 4096 then some isdigitSym else none }

/-- The empty catalog state used by the identity-stability witness. -/
def identityWitnessCatalog : SymListState :=
  { modulesPopulated := [], symbols := [], symbolsByName := [], nextStamp := 0, scans := 0 }

/-- A target with one already-populated module (`U-old`) and one fresh
module (`U-new`), used to witness the enumeration theorem. -/
def enumWitnessTarget : SymTarget :=
  { modules :=
      [{ uuid := "U-old", basename := "libold.dylib", syms := [] },
       { uuid := "U-new", basename := "libnew.dylib", syms := [] }],
    findSyms := fun _ => [],
    symbolContaining := fun _ => none }

/-- The catalog state of the enumeration witness: `U-old` is already
populated. -/
def enumWitnessCatalog : SymListState :=
  { modulesPopulated := ["U-old"], symbols := [], symbolsByName := [],
    nextStamp := 0, scans := 1 }

/-- A target exporting `isalpha@8192` and nothing else — in particular no
symbol called `log_debug` — used to evaluate `force_refresh`. -/
def refreshTarget : SymTarget :=
  { modules :=
      [{ uuid := "U-C", basename := "libsystem_c.dylib",
         syms := [{ sname := "isalpha", saddr := 8192, stype := eSymbolTypeCode }] }],
    findSyms := fun n =>
      if n = "isalpha" then [{ sname := "isalpha", saddr := 8192, stype := eSymbolTypeCode }]
      else [],
    symbolContaining := fun a =>
      if a = 8192 then some { sname := "isalpha", saddr := 8192, stype := eSymbolTypeCode }
      else none }

/-- A fresh catalog state for the `force_refresh` evaluation. -/
def refreshCatalog : SymListState :=
  { modulesPopulated := [], symbols := [], symbolsByName := [], nextStamp := 0, scans := 0 }

/-- A state with one live, tracked, **guarded** breakpoint at address
`4096`. -/
def overrideGuardedState : HildaState :=
  { nativeBps := [1], nextBpId := 2,
    books := [(1, { whereSpec := some (.addr 4096), callback := some 1,
                    condition := none, guarded := true, enabled := true,
                    description := none })],
    nativeWps := [], wpBooks := [], bpFrame := none }

/-- A state with one live, tracked, **non-guarded** breakpoint at address
`4096`, used to witness the amended override theorem. -/
def overrideCleanState : HildaState :=
  { nativeBps := [1], nextBpId := 2,
    books := [(1, { whereSpec := some (.addr 4096), callback := some 1,
                    condition := none, guarded := false, enabled := true,
                    description := none })],
    nativeWps := [], wpBooks := [], bpFrame := none }

/-! ## Theorems -/

/-- `0 ≤ v % 2 ^ 64` as stored by `symbolCreateAddr`, cast back to `Int`. -/
theorem symbolCreateAddr_cast (v : Int) : ((symbolCreateAddr v : Nat) : Int) = v % 2 ^ 64 := by
  unfold symbolCreateAddr
  rw [Int.toNat_of_nonneg (Int.emod_nonneg v (by norm_num))]

/-- `symbolCreateAddr` lands in `[0, 2 ^ 64)`. -/
theorem symbolCreateAddr_lt (v : Int) : symbolCreateAddr v < 2 ^ 64 := by
  unfold symbolCreateAddr
  have h1 := Int.emod_nonneg v (show (2 : Int) ^ 64 ≠ 0 by norm_num)
  have h2 := Int.emod_lt_of_pos v (show (0 : Int) < 2 ^ 64 by norm_num)
  omega

/-- **C10.** Every `Symbol` constructed through `Symbol.create` — including
the results of the arithmetic operators `+`, `-`, `*`, `&`, `|`, `^`, which
all feed the plain integer result back through `client.symbol` — stores the
input value reduced modulo `2 ^ 64`; negative or over-wide inputs wrap
rather than fail, and every address lies in `[0, 2 ^ 64)`. -/
theorem symbol_create_address_wraps_mod_2_64 (v : Int) (a : Nat) (o : Int) :
    (((symbolCreateAddr v : Nat) : Int) = v % 2 ^ 64 ∧ symbolCreateAddr v < 2 ^ 64) ∧
    (((symbolAdd a o : Nat) : Int) = ((a : Int) + o) % 2 ^ 64 ∧ symbolAdd a o < 2 ^ 64) ∧
    (((symbolSub a o : Nat) : Int) = ((a : Int) - o) % 2 ^ 64 ∧ symbolSub a o < 2 ^ 64) ∧
    (((symbolMul a o : Nat) : Int) = ((a : Int) * o) % 2 ^ 64 ∧ symbolMul a o < 2 ^ 64) ∧
    (((symbolAnd a o : Nat) : Int) = (Int.land (a : Int) o) % 2 ^ 64 ∧ symbolAnd a o < 2 ^ 64) ∧
    (((symbolOr a o : Nat) : Int) = (Int.lor (a : Int) o) % 2 ^ 64 ∧ symbolOr a o < 2 ^ 64) ∧
    (((symbolXor a o : Nat) : Int) = (Int.xor (a : Int) o) % 2 ^ 64 ∧ symbolXor a o < 2 ^ 64) :=
  ⟨⟨symbolCreateAddr_cast v, symbolCreateAddr_lt v⟩,
   ⟨symbolCreateAddr_cast _, symbolCreateAddr_lt _⟩,
   ⟨symbolCreateAddr_cast _, symbolCreateAddr_lt _⟩,
   ⟨symbolCreateAddr_cast _, symbolCreateAddr_lt _⟩,
   ⟨symbolCreateAddr_cast _, symbolCreateAddr_lt _⟩,
   ⟨symbolCreateAddr_cast _, symbolCreateAddr_lt _⟩,
   ⟨symbolCreateAddr_cast _, symbolCreateAddr_lt _⟩⟩

/-- **C1.** Both dispatch routers publish the hit frame as the current-frame
context before invoking the user callback, reset the context in a
`finally`-guaranteed cleanup on every path (including when the callback
raises), and do not catch the callback's exception: the dispatcher's result
is exactly the callback run on the published-frame state, with the frame
cleared afterwards and the callback's exception propagated unchanged. -/
theorem dispatch_router_publishes_and_cleans (env : CallbackEnv)
    (frame bpId wpId : Nat) (st : HildaState) :
    ((dispatchBreakpointCallback env frame bpId st).1.bpFrame = none) ∧
    ((dispatchWatchpointCallback env frame wpId st).1.bpFrame = none) ∧
    (∀ bp tok, st.nativeBps.contains bpId = true →
      st.books.lookup bpId = some bp → bp.callback = some tok →
      dispatchBreakpointCallback env frame bpId st =
        ({ (env tok { st with bpFrame := some frame }).1 with bpFrame := none },
          (env tok { st with bpFrame := some frame }).2)) ∧
    (∀ wp tok, st.nativeWps.contains wpId = true →
      st.wpBooks.lookup wpId = some wp → wp.callback = some tok →
      dispatchWatchpointCallback env frame wpId st =
        ({ (env tok { st with bpFrame := some frame }).1 with bpFrame := none },
          (env tok { st with bpFrame := some frame }).2)) := by
  refine ⟨?_, ?_, ?_, ?_⟩
  · unfold dispatchBreakpointCallback
    rcases hc : (bpGet { st with bpFrame := some frame } bpId).1 with _ | bp
    · simp [hc]
    · rcases hcb : bp.callback with _ | tok
      · simp [hc, hcb]
      · simp [hc, hcb]
  · unfold dispatchWatchpointCallback
    rcases hc : (wpGet { st with bpFrame := some frame } wpId).1 with _ | wp
    · simp [hc]
    · rcases hcb : wp.callback with _ | tok
      · simp [hc, hcb]
      · simp [hc, hcb]
  · intro bp tok hLive hLookup hCb
    unfold dispatchBreakpointCallback bpGet
    simp only [hLive, if_true, hLookup, hCb]
  · intro wp tok hLive hLookup hCb
    unfold dispatchWatchpointCallback wpGet
    simp only [hLive, if_true, hLookup, hCb]

/-- Witness for the dispatch-router theorem: at a concrete state whose
breakpoint 1 and watchpoint 3 carry a raising callback, the hypotheses hold
by computation and the routers clear the frame while propagating
`userError 42`. -/
theorem dispatch_router_publishes_and_cleans_witness :
    dispatchBreakpointCallback dispatchWitnessEnv 5 1 dispatchWitnessState =
      ({ dispatchWitnessState with bpFrame := none }, some (.userError 42)) ∧
    dispatchWatchpointCallback dispatchWitnessEnv 5 3 dispatchWitnessState =
      ({ dispatchWitnessState with bpFrame := none }, some (.userError 42)) := by
  have h := dispatch_router_publishes_and_cleans dispatchWitnessEnv 5 1 3 dispatchWitnessState
  refine ⟨?_, ?_⟩
  · rw [h.2.2.1 _ 7 (by decide) rfl rfl]
    rfl
  · rw [h.2.2.2 _ 7 (by decide) rfl rfl]
    rfl

/-- `bpGet` on a live, tracked ID returns the tracked entry and leaves the
state unchanged. -/
theorem bpGet_tracked (st : HildaState) (bpId : Nat) (bp : BpInfo)
    (h1 : st.nativeBps.contains bpId = true)
    (h2 : st.books.lookup bpId = some bp) :
    bpGet st bpId = (some bp, st) := by
  unfold bpGet
  simp only [h1, if_true, h2]

/-- `bpGet` on a dead ID fails and leaves the state unchanged. -/
theorem bpGet_dead (st : HildaState) (bpId : Nat)
    (h1 : st.nativeBps.contains bpId = false) :
    bpGet st bpId = (none, st) := by
  unfold bpGet
  simp only [h1]
  rfl

/-- Filtering an ID out really removes it from the containment check. -/
theorem contains_filter_ne (l : List Nat) (x : Nat) :
    (l.filter (fun i => i ≠ x)).contains x = false := by
  simp

/-- **C8.** Removing a guarded breakpoint without `remove_guarded` is a
logged no-op: nothing is raised, the whole state (native breakpoint and
bookkeeping included) is untouched, so the breakpoint stays present and
active; removing it with `remove_guarded = true` raises nothing and deletes
the native breakpoint. -/
theorem guarded_breakpoint_remove (st : HildaState) (bpId : Nat) (bp : BpInfo)
    (hLive : st.nativeBps.contains bpId = true)
    (hTracked : st.books.lookup bpId = some bp)
    (hGuard : bp.guarded = true) :
    bpRemove st bpId false = (st, none) ∧
    (bpRemove st bpId true).2 = none ∧
    ((bpRemove st bpId true).1.nativeBps.contains bpId = false) := by
  have hget := bpGet_tracked st bpId bp hLive hTracked
  unfold bpRemove
  rw [hget]
  refine ⟨by simp [hGuard], by simp [hGuard], ?_⟩
  simp only [hGuard]
  exact contains_filter_ne _ _

/-- Witness for the guarded-removal theorem at a concrete guarded
breakpoint. -/
theorem guarded_breakpoint_remove_witness :
    bpRemove guardedWitnessState 1 false = (guardedWitnessState, none) ∧
    (bpRemove guardedWitnessState 1 true).2 = none ∧
    ((bpRemove guardedWitnessState 1 true).1.nativeBps.contains 1 = false) :=
  guarded_breakpoint_remove guardedWitnessState 1 _ (by decide) rfl rfl

/-- **C2** evaluation at the failing input: removing the (non-guarded,
tracked) breakpoint 1 deletes the native breakpoint and raises nothing, but
the manager's `_breakpoints` bookkeeping entry for ID 1 survives — the code
never drops it, contradicting the claimed atomic delete-and-drop (and the
source's own comment that using `remove` avoids leaking entries in
`self._breakpoints`). -/
theorem remove_leaves_bookkeeping_entry :
    (bpRemove removeLeakState 1 false).2 = none ∧
    ((bpRemove removeLeakState 1 false).1.nativeBps.contains 1 = false) ∧
    (bpRemove removeLeakState 1 false).1.books.lookup 1 =
      some { whereSpec := some (.addr 4096), callback := some 1,
             condition := none, guarded := false, enabled := true,
             description := none } := by
  refine ⟨rfl, rfl, rfl⟩

/-- **C3** evaluation at the failing input: with both `bt=True` and `retval`
set, the synthesized callback calls `hilda.finish()` once in the backtrace
branch and once more in the return-value branch: it unwinds two frames, and
the `$arg1` return-value read happens at depth 2 (the caller's caller), not
in the caller's frame — the claimed at-most-one unwind does not hold. -/
theorem monitor_bt_retval_double_unwind :
    monitorCallbackTrace monitorBtRetvalOpts =
      [.finishStep 0, .btPrint 1, .finishStep 1, .retvalRead 2, .contResume] ∧
    monitorUnwindCount (monitorCallbackTrace monitorBtRetvalOpts) = 2 ∧
    monitorRetvalDepths (monitorCallbackTrace monitorBtRetvalOpts) = [2] := by
  refine ⟨rfl, rfl, rfl⟩

/-- Looking up the key just inserted finds the inserted value. -/
theorem assocLookup_insert_self {α β : Type} [DecidableEq α]
    (d : List (α × β)) (k : α) (v : β) :
    assocLookup (assocInsert d k v) k = some v := by
  induction d with
  | nil => simp [assocInsert, assocLookup]
  | cons hd tl ih =>
      by_cases h : hd.1 = k
      · cases hd
        simp_all [assocInsert, assocLookup]
      · cases hd
        simp_all [assocInsert, assocLookup]

/-- **C9** evaluation at the failing input: loading any persisted map with
at least one saved entry raises `TypeError` out of the very first
`self.symbols[k] = self.symbol(v.address)` — the staged `SymbolsJar`
defines no `__setitem__` — before the staleness probes ever run, leaving
the client state untouched, so neither the claimed
`BrokenLocalSymbolsJarError` rejection nor the successful re-population is
reachable.  Even the degenerate empty map fails its first probe with the
same `TypeError` (through `add_lldb_symbol`'s item assignment) whenever
`rand` is resolvable in the target but not cached in the jar. -/
theorem load_raises_type_error (k : String) (v : Int)
    (rest : List (String × Int)) (randSyms image0Syms : List LldbSym)
    (p1 p2 : Nat) (st : LoadState) :
    clientLoad ((k, v) :: rest) randSyms image0Syms p1 p2 st =
      (st, some .typeError) ∧
    clientLoad [] [randProbeSym] image0Syms p1 p2 loadStagedEmpty =
      (loadStagedEmpty, some .typeError) := by
  refine ⟨rfl, rfl⟩

/-- `_add` only touches the by-name index besides storing the entity:
the `_symbols` dictionary always receives the insertion. -/
theorem symListAddEntry_symbols (st : SymListState) (sid : SymId) (ent : SymbolEnt) :
    (symListAddEntry st sid ent).symbols = assocInsert st.symbols sid ent := by
  unfold symListAddEntry
  rcases sid with ⟨n, a⟩
  cases n with
  | none => rfl
  | some s =>
      dsimp only
      split
      · split <;> rfl
      · rfl

/-- `_add` does not touch the populated-module set. -/
theorem symListAddEntry_populated (st : SymListState) (sid : SymId) (ent : SymbolEnt) :
    (symListAddEntry st sid ent).modulesPopulated = st.modulesPopulated := by
  unfold symListAddEntry
  rcases sid with ⟨n, a⟩
  cases n with
  | none => rfl
  | some s =>
      dsimp only
      split
      · split <;> rfl
      · rfl

/-- `_add` does not touch the scan counter. -/
theorem symListAddEntry_scans (st : SymListState) (sid : SymId) (ent : SymbolEnt) :
    (symListAddEntry st sid ent).scans = st.scans := by
  unfold symListAddEntry
  rcases sid with ⟨n, a⟩
  cases n with
  | none => rfl
  | some s =>
      dsimp only
      split
      · split <;> rfl
      · rfl

/-- `get` when the resolved identity is already cached: the cached entity is
served and the state is untouched. -/
theorem symGet_cached (t : SymTarget) (st : SymListState) (q : SymQuery)
    (n : String) (addr ty : Nat) (ent : SymbolEnt)
    (hq : getLldbSymbol t q = some (n, addr, ty))
    (hl : assocLookup st.symbols (some n, addr) = some ent) :
    symGet t st q = (some ent, st) := by
  unfold symGet
  rw [hq]
  dsimp only
  rw [hl]

/-- `get` when the resolved identity is not yet cached: a fresh entity is
created (consuming a stamp), `_add`ed and returned. -/
theorem symGet_fresh (t : SymTarget) (st : SymListState) (q : SymQuery)
    (n : String) (addr ty : Nat)
    (hq : getLldbSymbol t q = some (n, addr, ty))
    (hl : assocLookup st.symbols (some n, addr) = none) :
    symGet t st q =
      (some { name := some n, addr := addr, ty := ty, stamp := st.nextStamp },
        symListAddEntry { st with nextStamp := st.nextStamp + 1 } (some n, addr)
          { name := some n, addr := addr, ty := ty, stamp := st.nextStamp }) := by
  unfold symGet
  rw [hq]
  dsimp only
  rw [hl]

/-- **C5.** For a regular symbol whose engine resolutions agree — the
`(name, address)` identity pair and the bare address resolve to the same
`(name, address, type)` triple — calling the global catalog's `get` with the
identity pair twice returns the very same cached entity (same stamp, not a
duplicate), and a subsequent `get` by the address alone returns that same
entity again. -/
theorem symbol_identity_stability (t : SymTarget) (st : SymListState)
    (nm : String) (a : Nat) (n : String) (addr ty : Nat)
    (h1 : getLldbSymbol t (.byId (some nm) a) = some (n, addr, ty))
    (h2 : getLldbSymbol t (.byAddr (a : Int)) = some (n, addr, ty)) :
    ∃ ent : SymbolEnt,
      (symGet t st (.byId (some nm) a)).1 = some ent ∧
      (symGet t (symGet t st (.byId (some nm) a)).2 (.byId (some nm) a)).1 = some ent ∧
      (symGet t (symGet t (symGet t st (.byId (some nm) a)).2
          (.byId (some nm) a)).2 (.byAddr (a : Int))).1 = some ent := by
  cases hl : assocLookup st.symbols (some n, addr) with
  | some ent =>
      have hg := symGet_cached t st (.byId (some nm) a) n addr ty ent h1 hl
      refine ⟨ent, ?_, ?_, ?_⟩
      · rw [hg]
      · rw [hg, hg]
      · rw [hg, hg, symGet_cached t st (.byAddr (a : Int)) n addr ty ent h2 hl]
  | none =>
      have hg := symGet_fresh t st (.byId (some nm) a) n addr ty h1 hl
      have hlk : assocLookup
          (symListAddEntry { st with nextStamp := st.nextStamp + 1 } (some n, addr)
            { name := some n, addr := addr, ty := ty, stamp := st.nextStamp }).symbols
          (some n, addr) =
          some { name := some n, addr := addr, ty := ty, stamp := st.nextStamp } := by
        rw [symListAddEntry_symbols]
        exact assocLookup_insert_self _ _ _
      have hg2 := symGet_cached t _ (.byId (some nm) a) n addr ty _ h1 hlk
      have hg3 := symGet_cached t _ (.byAddr (a : Int)) n addr ty _ h2 hlk
      refine ⟨{ name := some n, addr := addr, ty := ty, stamp := st.nextStamp }, ?_, ?_, ?_⟩
      · rw [hg]
      · rw [hg, hg2]
      · rw [hg, hg2, hg3]

/-- Witness for the identity-stability theorem at the concrete target and
the regular symbol `isdigit@4096`. -/
theorem symbol_identity_stability_witness :
    ∃ ent : SymbolEnt,
      (symGet identityWitnessTarget identityWitnessCatalog (.byId (some "isdigit") 4096)).1 = some ent ∧
      (symGet identityWitnessTarget
        (symGet identityWitnessTarget identityWitnessCatalog (.byId (some "isdigit") 4096)).2
        (.byId (some "isdigit") 4096)).1 = some ent ∧
      (symGet identityWitnessTarget
        (symGet identityWitnessTarget
          (symGet identityWitnessTarget identityWitnessCatalog (.byId (some "isdigit") 4096)).2
          (.byId (some "isdigit") 4096)).2 (.byAddr ((4096 : Nat) : Int))).1 = some ent :=
  symbol_identity_stability identityWitnessTarget identityWitnessCatalog
    "isdigit" 4096 "isdigit" 4096 eSymbolTypeCode (by decide) (by decide)

/-- `get` never changes the populated-module set. -/
theorem symGet_populated (t : SymTarget) (st : SymListState) (q : SymQuery) :
    (symGet t st q).2.modulesPopulated = st.modulesPopulated := by
  unfold symGet
  cases hq : getLldbSymbol t q with
  | none => rfl
  | some r =>
      rcases r with ⟨n, addr, ty⟩
      dsimp only
      cases hl : assocLookup st.symbols (some n, addr) with
      | none => exact symListAddEntry_populated _ _ _
      | some ent => rfl

/-- `get` never changes the scan counter. -/
theorem symGet_scans (t : SymTarget) (st : SymListState) (q : SymQuery) :
    (symGet t st q).2.scans = st.scans := by
  unfold symGet
  cases hq : getLldbSymbol t q with
  | none => rfl
  | some r =>
      rcases r with ⟨n, addr, ty⟩
      dsimp only
      cases hl : assocLookup st.symbols (some n, addr) with
      | none => exact symListAddEntry_scans _ _ _
      | some ent => rfl

/-- The per-module symbol walk changes neither the populated set nor the
scan counter. -/
theorem symWalk_populated_scans (t : SymTarget) (syms : List LldbSym)
    (st : SymListState) :
    (syms.foldl (fun (a : SymListState) (s : LldbSym) => (symGet t a (.bySym s)).2)
        st).modulesPopulated = st.modulesPopulated ∧
    (syms.foldl (fun (a : SymListState) (s : LldbSym) => (symGet t a (.bySym s)).2)
        st).scans = st.scans := by
  induction syms generalizing st with
  | nil => exact ⟨rfl, rfl⟩
  | cons s rest ih =>
      rw [List.foldl_cons]
      refine ⟨?_, ?_⟩
      · rw [(ih _).1, symGet_populated]
      · rw [(ih _).2, symGet_scans]

/-- `populateModule` adds exactly one scan. -/
theorem populateModule_scans (t : SymTarget) (acc : SymListState) (m : LldbModule) :
    (populateModule t acc m).scans = acc.scans + 1 := by
  unfold populateModule
  dsimp only
  rw [(symWalk_populated_scans t m.syms acc).2]

/-- `populateModule` keeps every previously-populated UUID and marks the
scanned module's UUID populated. -/
theorem populateModule_populated (t : SymTarget) (acc : SymListState) (m : LldbModule) :
    (∀ u ∈ acc.modulesPopulated, u ∈ (populateModule t acc m).modulesPopulated) ∧
    m.uuid ∈ (populateModule t acc m).modulesPopulated := by
  unfold populateModule
  dsimp only
  rw [(symWalk_populated_scans t m.syms acc).1]
  by_cases hc : acc.modulesPopulated.contains m.uuid
  · simp only [hc, if_true]
    exact ⟨fun u hu => hu, by simpa using hc⟩
  · simp only [hc, if_false]
    exact ⟨fun u hu => List.mem_append_left _ hu, List.mem_append_right _ (by simp)⟩

/-- Folding `populateModule` over a module list adds one scan per module. -/
theorem populateFold_scans (t : SymTarget) (ms : List LldbModule) (st : SymListState) :
    (ms.foldl (populateModule t) st).scans = st.scans + ms.length := by
  induction ms generalizing st with
  | nil => rfl
  | cons m rest ih =>
      rw [List.foldl_cons, ih, populateModule_scans, List.length_cons]
      omega

/-- Folding `populateModule` keeps every previously-populated UUID and marks
every folded module's UUID populated. -/
theorem populateFold_populated (t : SymTarget) (ms : List LldbModule) (st : SymListState) :
    (∀ u ∈ st.modulesPopulated, u ∈ (ms.foldl (populateModule t) st).modulesPopulated) ∧
    (∀ m ∈ ms, m.uuid ∈ (ms.foldl (populateModule t) st).modulesPopulated) := by
  induction ms generalizing st with
  | nil => exact ⟨fun u hu => hu, by simp⟩
  | cons m rest ih =>
      rw [List.foldl_cons]
      refine ⟨?_, ?_⟩
      · intro u hu
        exact (ih _).1 u ((populateModule_populated t st m).1 u hu)
      · intro m' hm'
        rcases List.mem_cons.mp hm' with h | h
        · subst h
          exact (ih _).1 m'.uuid (populateModule_populated t st m').2
        · exact (ih _).2 m' h

/-- **C6.** Enumerating all symbols of the global catalog scans each
module's symbol table at most once per session: the first enumeration scans
exactly the not-yet-populated modules (one engine scan each, population
state growing monotonically), and a second full enumeration leaves the
whole state — in particular the scan counter — unchanged, performing no
additional engine symbol-table scans. -/
theorem enumerate_all_scans_each_module_once (t : SymTarget) (st : SymListState) :
    ((symListIter t st).2.scans =
      st.scans +
        (t.modules.filter
          (fun m : LldbModule => !st.modulesPopulated.contains m.uuid)).length) ∧
    (∀ u ∈ st.modulesPopulated, u ∈ (symListIter t st).2.modulesPopulated) ∧
    symListIter t (symListIter t st).2 = ((symListIter t st).1, (symListIter t st).2) := by
  have hpop := populateFold_populated t
    (t.modules.filter (fun m : LldbModule => !st.modulesPopulated.contains m.uuid)) st
  have hall : ∀ m ∈ t.modules,
      m.uuid ∈ (populateCache t st none).modulesPopulated := by
    intro m hm
    by_cases hc : st.modulesPopulated.contains m.uuid
    · exact (hpop.1 m.uuid (by simpa using hc))
    · exact hpop.2 m (List.mem_filter.mpr ⟨hm, by simpa using hc⟩)
  have hnil : t.modules.filter
      (fun m : LldbModule =>
        !(populateCache t st none).modulesPopulated.contains m.uuid) = [] := by
    rw [List.filter_eq_nil_iff]
    intro m hm
    simpa using hall m hm
  have hpc2 : populateCache t (populateCache t st none) none = populateCache t st none := by
    have heq : populateCache t (populateCache t st none) none =
        (t.modules.filter
          (fun m : LldbModule =>
            !(populateCache t st none).modulesPopulated.contains m.uuid)).foldl
          (populateModule t) (populateCache t st none) := rfl
    rw [heq, hnil, List.foldl_nil]
  refine ⟨?_, ?_, ?_⟩
  · exact populateFold_scans t _ st
  · exact hpop.1
  · show symListIter t (populateCache t st none) = _
    unfold symListIter
    rw [hpc2]

/-- Witness for the enumeration theorem: the first enumeration scans exactly
the one unpopulated module, keeps `U-old` populated, and a second
enumeration changes nothing. -/
theorem enumerate_all_scans_each_module_once_witness :
    (symListIter enumWitnessTarget enumWitnessCatalog).2.scans =
      enumWitnessCatalog.scans + 1 ∧
    "U-old" ∈ (symListIter enumWitnessTarget enumWitnessCatalog).2.modulesPopulated ∧
    symListIter enumWitnessTarget (symListIter enumWitnessTarget enumWitnessCatalog).2 =
      ((symListIter enumWitnessTarget enumWitnessCatalog).1,
        (symListIter enumWitnessTarget enumWitnessCatalog).2) := by
  have h := enumerate_all_scans_each_module_once enumWitnessTarget enumWitnessCatalog
  refine ⟨?_, h.2.1 "U-old" (by decide), h.2.2⟩
  rw [h.1]
  decide

/-- **C7** evaluation at the failing input: `force_refresh` (any range, any
filter — shown for the default full scan) raises `SymbolAbsentError` out of
its very first statement and scans nothing: `self.log_debug(...)` resolves
through `SymbolList.__getattr__`, which treats `log_debug` as a symbol name
and finds no such symbol in the attached process, so the claimed
unconditional re-scan never happens and the call does not complete. -/
theorem force_refresh_raises_symbol_absent :
    forceRefresh refreshTarget refreshCatalog none "" =
      (refreshCatalog, some .symbolAbsentError) ∧
    (forceRefresh refreshTarget refreshCatalog none "").1.scans = 0 := by
  refine ⟨rfl, rfl⟩

/-- **C4** counterexample: `add(where=0x1000, override=True)` against a
state whose only tracked breakpoint at `0x1000` is guarded returns a new
breakpoint and raises nothing, but afterwards **two** live breakpoints sit
at `0x1000` — the guarded conflict survives the override removal (the
`del self[bp]` path is the guard-respecting `remove`), so the claim's
"exactly one breakpoint at X afterward" is false as stated. -/
theorem override_add_guarded_leaves_two :
    (bpAdd overrideGuardedState (.addr 4096) (some 2) none false true false none).2.1 =
      some 2 ∧
    (bpAdd overrideGuardedState (.addr 4096) (some 2) none false true false none).2.2 =
      none ∧
    bpsAt (bpAdd overrideGuardedState (.addr 4096) (some 2) none false true false none).1
      (.addr 4096) = [1, 2] := by
  refine ⟨rfl, rfl, rfl⟩

/-- On a state whose live breakpoints are all tracked, the `where`
membership scan of `add` mutates nothing and answers whether some live
breakpoint's `where` equals the probe. -/
theorem bpScanWhere_tracked (st : HildaState) (w : WhereSpec) (ids : List Nat)
    (h : ∀ id ∈ ids, id ∈ st.nativeBps ∧ (st.books.lookup id).isSome) :
    bpScanWhere st ids w = (ids.any (fun id => trackedWhereEq st id w), st) := by
  induction ids with
  | nil => rfl
  | cons i rest ih =>
      obtain ⟨hmem, hsome⟩ := h i (by simp)
      obtain ⟨bp, hbp⟩ := Option.isSome_iff_exists.mp hsome
      have hget := bpGet_tracked st i bp (by simpa using hmem) hbp
      unfold bpScanWhere
      rw [hget]
      dsimp only
      have htw : trackedWhereEq st i w = decide (bp.whereSpec = some w) := by
        unfold trackedWhereEq
        rw [hbp]
      by_cases hw : bp.whereSpec = some w
      · simp [hw, htw]
      · rw [if_neg hw, ih (fun id hid => h id (by simp [hid]))]
        simp [htw, hw]

/-- On a state whose live breakpoints are all tracked, the conflict snapshot
of `add` mutates nothing and collects exactly the live IDs whose tracked
`where` equals the probe. -/
theorem bpCollectWhere_tracked (st : HildaState) (w : WhereSpec) (ids : List Nat)
    (h : ∀ id ∈ ids, id ∈ st.nativeBps ∧ (st.books.lookup id).isSome) :
    bpCollectWhere st ids w =
      (ids.filter (fun id => trackedWhereEq st id w), st) := by
  induction ids with
  | nil => rfl
  | cons i rest ih =>
      obtain ⟨hmem, hsome⟩ := h i (by simp)
      obtain ⟨bp, hbp⟩ := Option.isSome_iff_exists.mp hsome
      have hget := bpGet_tracked st i bp (by simpa using hmem) hbp
      unfold bpCollectWhere
      rw [hget]
      dsimp only
      rw [ih (fun id hid => h id (by simp [hid]))]
      have htw : trackedWhereEq st i w = decide (bp.whereSpec = some w) := by
        unfold trackedWhereEq
        rw [hbp]
      by_cases hw : bp.whereSpec = some w
      · simp [hw, htw]
      · simp [hw, htw]

/-- A non-guarded tracked live breakpoint is removed by deleting it from the
native list (bookkeeping untouched). -/
theorem bpRemove_not_guarded (st : HildaState) (bpId : Nat) (bp : BpInfo)
    (hmem : bpId ∈ st.nativeBps)
    (hbp : st.books.lookup bpId = some bp)
    (hg : bp.guarded = false) :
    bpRemove st bpId false =
      ({ st with nativeBps := st.nativeBps.filter (fun i => i ≠ bpId) }, none) := by
  have hget := bpGet_tracked st bpId bp (by simpa using hmem) hbp
  unfold bpRemove
  rw [hget]
  simp [hg]

/-- The conflict-removal loop over a duplicate-free list of non-guarded
tracked live breakpoints raises nothing and deletes exactly those IDs from
the native list, touching nothing else. -/
theorem bpRemoveLoop_clean (st : HildaState) (targets : List Nat)
    (hsub : ∀ id ∈ targets, id ∈ st.nativeBps)
    (hnd : targets.Nodup)
    (h : ∀ id ∈ targets, ∃ bp, st.books.lookup id = some bp ∧ bp.guarded = false) :
    bpRemoveLoop st targets =
      ({ st with nativeBps := st.nativeBps.filter (fun i => !targets.contains i) },
        none) := by
  induction targets generalizing st with
  | nil =>
      unfold bpRemoveLoop
      simp
  | cons t rest ih =>
      obtain ⟨bp, hbp, hg⟩ := h t (by simp)
      have hrm := bpRemove_not_guarded st t bp (hsub t (by simp)) hbp hg
      unfold bpRemoveLoop
      rw [hrm]
      dsimp only
      rw [List.nodup_cons] at hnd
      have hsub' : ∀ id ∈ rest,
          id ∈ st.nativeBps.filter (fun i => i ≠ t) := by
        intro id hid
        refine List.mem_filter.mpr ⟨hsub id (by simp [hid]), ?_⟩
        have : id ≠ t := fun hc => hnd.1 (hc ▸ hid)
        simpa using this
      rw [ih { st with nativeBps := st.nativeBps.filter (fun i => i ≠ t) } hsub' hnd.2
        (fun id hid => h id (by simp [hid]))]
      refine congrArg (fun l => ({ st with nativeBps := l }, none)) ?_
      rw [List.filter_filter]
      refine List.filter_congr ?_
      intro i _
      by_cases hit : i = t
      · subst hit
        simp
      · simp [hit]

/-- A `Nat`-keyed association list with all keys different from `k` has no
binding for `k`. -/
theorem lookup_eq_none_of_forall_ne {β : Type} (d : List (Nat × β)) (k : Nat)
    (h : ∀ kv ∈ d, Prod.fst kv ≠ k) : d.lookup k = none := by
  induction d with
  | nil => rfl
  | cons hd tl ih =>
      cases hd with
      | mk k' v =>
          have hne : k' ≠ k := h (k', v) (by simp)
          have hb : (k == k') = false := beq_eq_false_iff_ne.mpr (Ne.symm hne)
          simp only [List.lookup, hb]
          exact ih (fun kv hkv => h kv (by simp [hkv]))

/-- Inserting a fresh key into a dictionary appends. -/
theorem dictInsert_fresh {β : Type} (d : List (Nat × β)) (k : Nat) (v : β)
    (h : d.lookup k = none) : dictInsert d k v = d ++ [(k, v)] := by
  unfold dictInsert
  rw [h]
  rfl

/-- `trackedWhereEq` only reads the bookkeeping dictionary. -/
theorem trackedWhereEq_congr (st1 st2 : HildaState) (h : st1.books = st2.books)
    (bpId : Nat) (w : WhereSpec) :
    trackedWhereEq st1 bpId w = trackedWhereEq st2 bpId w := by
  unfold trackedWhereEq
  rw [h]

/-- **C4** (amended).  `add(where=X, override=True)` on a well-formed
manager state (live breakpoints tracked, duplicate-free, IDs below the next
engine ID) in which **no guarded breakpoint sits at `X`** raises nothing,
returns the fresh engine ID, and leaves exactly one live breakpoint at `X`
afterwards — the new one, carrying the newly supplied callback and
condition.  (The guarded case is the counterexample above: a guarded
conflict survives the override and two breakpoints remain at `X`.) -/
theorem override_add_replaces (st : HildaState) (w : WhereSpec) (cb : Option Nat)
    (cond : Option String) (g promptAnswer : Bool) (descr : Option String)
    (hTracked : ∀ id ∈ st.nativeBps, (st.books.lookup id).isSome)
    (hNodup : st.nativeBps.Nodup)
    (hFreshBooks : ∀ kv ∈ st.books, Prod.fst kv < st.nextBpId)
    (hNoGuard : ∀ id ∈ st.nativeBps, ∀ bp, st.books.lookup id = some bp →
        bp.whereSpec = some w → bp.guarded = false)
    (hNotPair : ∀ s m, w ≠ .pair s m) :
    (bpAdd st w cb cond g true promptAnswer descr).2.1 = some st.nextBpId ∧
    (bpAdd st w cb cond g true promptAnswer descr).2.2 = none ∧
    bpsAt (bpAdd st w cb cond g true promptAnswer descr).1 w = [st.nextBpId] ∧
    (bpAdd st w cb cond g true promptAnswer descr).1.books.lookup st.nextBpId =
      some { whereSpec := some w, callback := cb, condition := cond,
             guarded := g, enabled := true, description := descr } := by
  have hIds : ∀ id ∈ st.nativeBps, id ∈ st.nativeBps ∧ (st.books.lookup id).isSome :=
    fun id hid => ⟨hid, hTracked id hid⟩
  have hscan := bpScanWhere_tracked st w st.nativeBps hIds
  have hcoll := bpCollectWhere_tracked st w st.nativeBps hIds
  have hloopTargets := bpRemoveLoop_clean st
    (st.nativeBps.filter (fun id => trackedWhereEq st id w))
    (fun id hid => (List.mem_filter.mp hid).1)
    (hNodup.filter _)
    (fun id hid => by
      obtain ⟨hidm, hw⟩ := List.mem_filter.mp hid
      obtain ⟨bp, hbp⟩ := Option.isSome_iff_exists.mp (hTracked id hidm)
      refine ⟨bp, hbp, ?_⟩
      apply hNoGuard id hidm bp hbp
      unfold trackedWhereEq at hw
      rw [hbp] at hw
      simpa using hw)
  have hNv : st.nativeBps.filter
      (fun i => !((st.nativeBps.filter (fun id => trackedWhereEq st id w)).contains i)) =
      st.nativeBps.filter (fun i => !(trackedWhereEq st i w)) := by
    refine List.filter_congr ?_
    intro i hi
    by_cases hweq : trackedWhereEq st i w
    · have hmemf : i ∈ st.nativeBps.filter (fun id => trackedWhereEq st id w) :=
        List.mem_filter.mpr ⟨hi, hweq⟩
      simp [hweq, hmemf]
    · have hnm : i ∉ st.nativeBps.filter (fun id => trackedWhereEq st id w) := by
        intro hc
        exact hweq (List.mem_filter.mp hc).2
      simp [hweq, hnm]
  have hloop : bpRemoveLoop st (st.nativeBps.filter (fun id => trackedWhereEq st id w)) =
      ({ st with nativeBps := st.nativeBps.filter (fun i => !(trackedWhereEq st i w)) },
        none) := by
    rw [hloopTargets, hNv]
  have hbooksNone : st.books.lookup st.nextBpId = none :=
    lookup_eq_none_of_forall_ne st.books st.nextBpId
      (fun kv hkv => Nat.ne_of_lt (hFreshBooks kv hkv))
  have hadd : bpAdd st w cb cond g true promptAnswer descr =
      ({ st with
          nativeBps := st.nativeBps.filter (fun i => !(trackedWhereEq st i w)) ++
            [st.nextBpId],
          nextBpId := st.nextBpId + 1,
          books := dictInsert st.books st.nextBpId
            { whereSpec := some w, callback := cb, condition := cond,
              guarded := g, enabled := true, description := descr } },
        some st.nextBpId, none) := by
    unfold bpAdd
    rw [hscan]
    dsimp only
    cases hany : st.nativeBps.any (fun id => trackedWhereEq st id w) with
    | true =>
        simp only [Bool.true_and, Bool.true_or, if_true]
        rw [hcoll]
        dsimp only
        rw [hloop]
    | false =>
        simp only [Bool.false_and, Bool.false_or, if_false]
        have hNall : st.nativeBps.filter (fun i => !(trackedWhereEq st i w)) =
            st.nativeBps := by
          refine List.filter_eq_self.mpr ?_
          intro id hid
          have := List.any_eq_false.mp hany id hid
          simpa using this
        rw [hNall]
        cases w with
        | addr a => rfl
        | name s => rfl
        | pair s m => exact absurd rfl (hNotPair s m)
  have hbF : (bpAdd st w cb cond g true promptAnswer descr).1.books =
      st.books ++ [(st.nextBpId,
        { whereSpec := some w, callback := cb, condition := cond,
          guarded := g, enabled := true, description := descr })] := by
    rw [hadd]
    dsimp only
    exact dictInsert_fresh st.books st.nextBpId _ hbooksNone
  have hnF : (bpAdd st w cb cond g true promptAnswer descr).1.nativeBps =
      st.nativeBps.filter (fun i => !(trackedWhereEq st i w)) ++ [st.nextBpId] := by
    rw [hadd]
  refine ⟨by rw [hadd], by rw [hadd], ?_, ?_⟩
  · unfold bpsAt
    rw [hnF, List.filter_append]
    have hleft : (st.nativeBps.filter (fun i => !(trackedWhereEq st i w))).filter
        (fun bpId =>
          trackedWhereEq (bpAdd st w cb cond g true promptAnswer descr).1 bpId w) = [] := by
      rw [List.filter_eq_nil_iff]
      intro id hid
      obtain ⟨hidm, hne⟩ := List.mem_filter.mp hid
      obtain ⟨bp, hbp⟩ := Option.isSome_iff_exists.mp (hTracked id hidm)
      unfold trackedWhereEq
      rw [hbF, List.lookup_append, hbp]
      unfold trackedWhereEq at hne
      rw [hbp] at hne
      simpa using hne
    have hnew : trackedWhereEq (bpAdd st w cb cond g true promptAnswer descr).1
        st.nextBpId w = true := by
      unfold trackedWhereEq
      rw [hbF, List.lookup_append, hbooksNone]
      simp [List.lookup]
    rw [hleft]
    simp [hnew]
  · rw [hbF, List.lookup_append, hbooksNone]
    simp [List.lookup]

/-- Witness for the amended override theorem at a concrete non-guarded
conflict: exactly the fresh breakpoint 2 remains at `0x1000`, carrying the
new callback and condition. -/
theorem override_add_replaces_witness :
    (bpAdd overrideCleanState (.addr 4096) (some 2) (some "x0 == 1")
      false true false none).2.1 = some 2 ∧
    (bpAdd overrideCleanState (.addr 4096) (some 2) (some "x0 == 1")
      false true false none).2.2 = none ∧
    bpsAt (bpAdd overrideCleanState (.addr 4096) (some 2) (some "x0 == 1")
      false true false none).1 (.addr 4096) = [2] ∧
    (bpAdd overrideCleanState (.addr 4096) (some 2) (some "x0 == 1")
      false true false none).1.books.lookup 2 =
      some { whereSpec := some (.addr 4096), callback := some 2,
             condition := some "x0 == 1", guarded := false, enabled := true,
             description := none } :=
  override_add_replaces overrideCleanState (.addr 4096) (some 2) (some "x0 == 1")
    false false none
    (by decide)
    (by decide)
    (by decide)
    (fun id hid bp hbp hw => by
      have hid1 : id = 1 := by simpa [overrideCleanState] using hid
      subst hid1
      have hlk : List.lookup 1 overrideCleanState.books =
          some { whereSpec := some (.addr 4096), callback := some 1,
                 condition := none, guarded := false, enabled := true,
                 description := none } := rfl
      rw [hlk] at hbp
      have hbp1 := ((Option.some.injEq _ _).mp hbp).symm
      rw [hbp1])
    (fun s m h => WhereSpec.noConfusion h)
